import Mathlib

/-!
Shallow embedding of the recipe-website data-consistency layer:
the tables of `src/database/schema.sql`, the five maintenance triggers
defined there (`update_category_recipe_count_insert/_delete`,
`update_recipe_rating_insert/_delete`, `update_search_index`,
`update_recipe_timestamp`, `update_category_timestamp`), the one-time
search-index seeding `INSERT ... SELECT`, and the Cloudflare Worker
write path `addReview` from the API file.

Tables are lists of row structures; `DATETIME` columns are modelled as
`Nat` instants supplied by the caller (the engine's `CURRENT_TIMESTAMP`);
review ratings and their SQLite `REAL` averages are modelled exactly as
`Rat` (the `reviews` table is not STRICT, so any numeric rating passing
the CHECK is stored, integer or not);
AUTOINCREMENT ids are drawn from an explicit `seq` counter on the state.
`TEXT` columns that the claims touch are modelled as `String` (the
non-NULL case; `LOWER` in SQLite is ASCII-only, matching `String.toLower`).
A statement that violates a declared constraint (CHECK, FOREIGN KEY,
UNIQUE) returns `none`: the whole statement is rejected and, triggers
being part of the same statement, no maintenance runs.
-/

/-- Row of the `categories` table (columns the consistency layer touches). -/
structure Category where
  id : Nat
  slug : String
  name : String
  parent_id : Option Nat
  sort_order : Int
  recipe_count : Nat
  featured : Bool
  created_at : Nat
  updated_at : Nat
deriving DecidableEq

/-- Row of the `recipes` table (columns the consistency layer touches). -/
structure Recipe where
  id : Nat
  slug : String
  title : String
  description : String
  ingredients : String
  instructions : String
  tags : String
  rating : Rat
  review_count : Nat
  status : String
  featured : Bool
  created_at : Nat
  updated_at : Nat
deriving DecidableEq

/-- Row of the `recipe_categories` junction table. -/
structure RecipeCategory where
  id : Nat
  recipe_id : Nat
  category_id : Nat
  created_at : Nat
deriving DecidableEq

/-- Row of the `reviews` table. The `rating` column is declared INTEGER,
but the table is not STRICT, so SQLite stores any numeric value that
passes `CHECK(rating >= 1 AND rating <= 5)` — e.g. 4.5 is stored as REAL.
It is therefore modelled as `Rat`, not `Int`. -/
structure Review where
  id : Nat
  recipe_id : Nat
  reviewer_name : String
  reviewer_email : Option String
  rating : Rat
  title : Option String
  comment : Option String
  helpful_count : Nat
  status : String
  created_at : Nat
deriving DecidableEq

/-- Row of the `recipe_search_index` table. -/
structure SearchIndexEntry where
  id : Nat
  recipe_id : Nat
  search_text : String
  created_at : Nat
deriving DecidableEq

/-- The database state: one list per table plus the AUTOINCREMENT counter. -/
structure DB where
  categories : List Category
  recipes : List Recipe
  recipe_categories : List RecipeCategory
  reviews : List Review
  recipe_search_index : List SearchIndexEntry
  seq : Nat
deriving DecidableEq

/-- `SELECT COUNT(*) FROM recipe_categories WHERE category_id = cid`. -/
def assocCount (db : DB) (cid : Nat) : Nat :=
  (db.recipe_categories.filter (fun a => a.category_id == cid)).length

/-- `SELECT * FROM reviews WHERE recipe_id = rid` (all statuses). -/
def recipeReviews (db : DB) (rid : Nat) : List Review :=
  db.reviews.filter (fun v => v.recipe_id == rid)

/-- `SELECT * FROM reviews WHERE recipe_id = rid AND status = 'published'`,
the filter the read-side reviews endpoint applies. -/
def publishedReviews (db : DB) (rid : Nat) : List Review :=
  db.reviews.filter (fun v => v.recipe_id == rid && v.status == "published")

/-- `COALESCE(AVG(CAST(rating AS REAL)), 0)` over a list of review rows:
the arithmetic mean of the ratings, or 0 when the list is empty. The
insert trigger omits the COALESCE but always runs on a nonempty list. -/
def avgOrZero (l : List Review) : Rat :=
  if l.length = 0 then 0 else (l.map (fun v => v.rating)).sum / (l.length : Rat)

/-- SQLite `LOWER`: ASCII-only lowercasing, character by character
(`Char.toLower` lowers exactly the ASCII uppercase range). -/
def lowerStr (s : String) : String :=
  ⟨s.data.map Char.toLower⟩

/-- `LOWER(title || ' ' || description || ' ' || tags || ' ' || ingredients
|| ' ' || instructions)` — the search-text concatenation rule shared by
the seeding INSERT and the `update_search_index` trigger. -/
def searchTextOf (r : Recipe) : String :=
  lowerStr (r.title ++ " " ++ r.description ++ " " ++ r.tags ++ " " ++ r.ingredients
    ++ " " ++ r.instructions)

/-- Stored `rating` of recipe `rid` (0 when the recipe is absent). -/
def storedRating (db : DB) (rid : Nat) : Rat :=
  match db.recipes.find? (fun r => r.id == rid) with
  | some r => r.rating
  | none => 0

/-- Stored `review_count` of recipe `rid` (0 when the recipe is absent). -/
def storedReviewCount (db : DB) (rid : Nat) : Nat :=
  match db.recipes.find? (fun r => r.id == rid) with
  | some r => r.review_count
  | none => 0

/-- Stored `updated_at` of recipe `rid` (0 when the recipe is absent). -/
def recipeUpdatedAt (db : DB) (rid : Nat) : Nat :=
  match db.recipes.find? (fun r => r.id == rid) with
  | some r => r.updated_at
  | none => 0

/-- Stored `updated_at` of category `cid` (0 when the category is absent). -/
def categoryUpdatedAt (db : DB) (cid : Nat) : Nat :=
  match db.categories.find? (fun c => c.id == cid) with
  | some c => c.updated_at
  | none => 0

/-- Body of triggers `update_category_recipe_count_insert/_delete`:
`UPDATE categories SET recipe_count = (SELECT COUNT(*) FROM
recipe_categories WHERE category_id = cid) WHERE id = cid`, run against
the state after the triggering row change. -/
def recountCategory (db : DB) (cid : Nat) : DB :=
  { db with categories := db.categories.map (fun c =>
      if c.id == cid then { c with recipe_count := assocCount db cid } else c) }

/-- `INSERT INTO recipe_categories (recipe_id, category_id)` followed by
trigger `update_category_recipe_count_insert`. The UNIQUE(recipe_id,
category_id) and both FOREIGN KEY constraints reject the statement
(`none`) before any trigger runs. -/
def insertRecipeCategory (db : DB) (rid cid now : Nat) : Option DB :=
  if db.recipe_categories.any (fun a => a.recipe_id == rid && a.category_id == cid) then
    none
  else if ¬ db.recipes.any (fun r => r.id == rid) then none
  else if ¬ db.categories.any (fun c => c.id == cid) then none
  else
    let db1 : DB := { db with
      recipe_categories := db.recipe_categories ++ [⟨db.seq, rid, cid, now⟩],
      seq := db.seq + 1 }
    some (recountCategory db1 cid)

/-- `DELETE FROM recipe_categories WHERE recipe_id = rid AND category_id
= cid` followed, when a row was actually deleted, by trigger
`update_category_recipe_count_delete` keyed on `OLD.category_id`. -/
def deleteRecipeCategory (db : DB) (rid cid : Nat) : DB :=
  let db1 : DB := { db with recipe_categories :=
      db.recipe_categories.filter (fun a => !(a.recipe_id == rid && a.category_id == cid)) }
  if db.recipe_categories.any (fun a => a.recipe_id == rid && a.category_id == cid) then
    recountCategory db1 cid
  else db1

/-- Body shared by triggers `update_recipe_rating_insert/_delete`:
`UPDATE recipes SET rating = AVG over reviews of the recipe, review_count
= their COUNT WHERE id = rid`, run against the post-change state. No
`status` filter appears in either trigger. -/
def recomputeRecipeRating (db : DB) (rid : Nat) : DB :=
  { db with recipes := db.recipes.map (fun r =>
      if r.id == rid then
        { r with
          rating := avgOrZero (recipeReviews db rid),
          review_count := (recipeReviews db rid).length }
      else r) }

/-- `INSERT INTO reviews (recipe_id, reviewer_name, reviewer_email,
rating, title, comment, status)` followed by trigger
`update_recipe_rating_insert`. The CHECK on `rating`, the CHECK on
`status` and the FOREIGN KEY on `recipe_id` reject the statement
(`none`) before any trigger runs; `helpful_count` defaults to 0. -/
def insertReview (db : DB) (rid : Nat) (name : String) (email : Option String)
    (rating : Rat) (title comment : Option String) (status : String) (now : Nat) :
    Option DB :=
  if ¬ (1 ≤ rating ∧ rating ≤ 5) then none
  else if ¬ (status = "pending" ∨ status = "published" ∨ status = "rejected") then none
  else if ¬ db.recipes.any (fun r => r.id == rid) then none
  else
    let db1 : DB := { db with
      reviews := db.reviews ++ [⟨db.seq, rid, name, email, rating, title, comment, 0, status, now⟩],
      seq := db.seq + 1 }
    some (recomputeRecipeRating db1 rid)

/-- `DELETE FROM reviews WHERE id = reviewId` followed, when the row
existed, by trigger `update_recipe_rating_delete` keyed on
`OLD.recipe_id` (whose recompute carries `COALESCE(..., 0)`). -/
def deleteReview (db : DB) (reviewId : Nat) : DB :=
  match db.reviews.find? (fun v => v.id == reviewId) with
  | none => db
  | some v =>
    let db1 : DB := { db with
      reviews := db.reviews.filter (fun w => !(w.id == reviewId)) }
    recomputeRecipeRating db1 v.recipe_id

/-- Body of trigger `update_search_index` for recipe `rid`: `DELETE FROM
recipe_search_index WHERE recipe_id = rid` then insert one fresh row with
the recipe's current concatenated text. A no-op when no such recipe row
exists (the trigger only ever fires with an existing NEW row). -/
def materializeSearchIndex (db : DB) (rid now : Nat) : DB :=
  match db.recipes.find? (fun r => r.id == rid) with
  | none => db
  | some r =>
    { db with
      recipe_search_index :=
        db.recipe_search_index.filter (fun e => !(e.recipe_id == rid))
          ++ [⟨db.seq, rid, searchTextOf r, now⟩],
      seq := db.seq + 1 }

/-- `UPDATE recipes SET ... WHERE id = rid` with client-chosen new column
values `f` (key-preserving), followed by the AFTER UPDATE triggers
`update_search_index` and `update_recipe_timestamp` (`updated_at :=
CURRENT_TIMESTAMP`, i.e. `now`). A no-op when no row matches. -/
def updateRecipe (db : DB) (rid : Nat) (f : Recipe → Recipe) (now : Nat) : DB :=
  match db.recipes.find? (fun r => r.id == rid) with
  | none => db
  | some r =>
    let newR : Recipe := { f r with id := rid }
    let db1 : DB := { db with
      recipes := db.recipes.map (fun s => if s.id == rid then newR else s) }
    let db2 : DB := materializeSearchIndex db1 rid now
    { db2 with recipes := db2.recipes.map (fun s =>
        if s.id == rid then { s with updated_at := now } else s) }

/-- `UPDATE categories SET ... WHERE id = cid` with client-chosen new
column values `f` (key-preserving), followed by the AFTER UPDATE trigger
`update_category_timestamp`. A no-op when no row matches. -/
def updateCategory (db : DB) (cid : Nat) (f : Category → Category) (now : Nat) : DB :=
  match db.categories.find? (fun c => c.id == cid) with
  | none => db
  | some c =>
    let newC : Category := { f c with id := cid }
    let db1 : DB := { db with
      categories := db.categories.map (fun d => if d.id == cid then newC else d) }
    { db1 with categories := db1.categories.map (fun d =>
        if d.id == cid then { d with updated_at := now } else d) }

/-- `INSERT INTO recipes ...`. The UNIQUE constraint on `slug` rejects a
duplicate. The schema defines no AFTER INSERT trigger on `recipes`, so no
search-index row is produced here. -/
def createRecipe (db : DB) (r : Recipe) : Option DB :=
  if db.recipes.any (fun s => s.slug == r.slug) then none
  else some { db with
    recipes := db.recipes ++ [{ r with id := db.seq }],
    seq := db.seq + 1 }

/-- Rows produced by the one-time seeding `INSERT INTO recipe_search_index
(recipe_id, search_text) SELECT id, LOWER(...) FROM recipes`, assigning
consecutive AUTOINCREMENT ids starting at `seq`. -/
def seedEntries (seq now : Nat) : List Recipe → List SearchIndexEntry
  | [] => []
  | r :: rs => ⟨seq, r.id, searchTextOf r, now⟩ :: seedEntries (seq + 1) now rs

/-- The schema's one-time search-index seeding statement. -/
def seedSearchIndex (db : DB) (now : Nat) : DB :=
  { db with
    recipe_search_index := db.recipe_search_index ++ seedEntries db.seq now db.recipes,
    seq := db.seq + db.recipes.length }

/-- `DELETE FROM recipes WHERE id = rid` with the three declared
ON DELETE CASCADE actions: associations, reviews and search-index rows
referencing the recipe are removed with it. (Aggregate triggers fired by
the cascade itself are not modelled; no claim reads those aggregates.) -/
def deleteRecipe (db : DB) (rid : Nat) : DB :=
  { db with
    recipes := db.recipes.filter (fun r => !(r.id == rid)),
    recipe_categories := db.recipe_categories.filter (fun a => !(a.recipe_id == rid)),
    reviews := db.reviews.filter (fun v => !(v.recipe_id == rid)),
    recipe_search_index := db.recipe_search_index.filter (fun e => !(e.recipe_id == rid)) }

/-- `DELETE FROM categories WHERE id = cid` with its single declared
ON DELETE CASCADE action: association rows referencing the category are
removed; no other table is touched. -/
def deleteCategory (db : DB) (cid : Nat) : DB :=
  { db with
    categories := db.categories.filter (fun c => !(c.id == cid)),
    recipe_categories := db.recipe_categories.filter (fun a => !(a.category_id == cid)) }

/-- Request body accepted by the Worker's `addReview` handler. -/
structure ReviewBody where
  reviewer_name : String
  reviewer_email : Option String
  rating : Rat
  title : Option String
  comment : Option String
deriving DecidableEq

/-- The Worker's `addReview` write path: validate (`!reviewer_name ||
!rating || rating < 1 || rating > 5` → "Invalid review data"), resolve
the recipe by slug ("Recipe not found" when absent), then run the INSERT
— which never mentions `status`, so the schema default `'published'`
applies — with its trigger. -/
def addReview (db : DB) (slug : String) (body : ReviewBody) (now : Nat) :
    Except String DB :=
  if body.reviewer_name = "" ∨ body.rating = 0 ∨ body.rating < 1 ∨ body.rating > 5 then
    Except.error "Invalid review data"
  else
    match db.recipes.find? (fun r => r.slug == slug) with
    | none => Except.error "Recipe not found"
    | some r =>
      match insertReview db r.id body.reviewer_name body.reviewer_email body.rating
          body.title body.comment "published" now with
      | some db' => Except.ok db'
      | none => Except.error "Failed to add review"

/-- Executable check: every stored `categories.recipe_count` equals the
live count of association rows referencing that category. -/
def categoryCountsOk (db : DB) : Bool :=
  db.categories.all (fun c => c.recipe_count == assocCount db c.id)

/-- Executable check: every stored `recipes.rating` / `review_count`
equals the mean / count over ALL of that recipe's review rows. -/
def ratingsOk (db : DB) : Bool :=
  db.recipes.all (fun r =>
    r.rating == avgOrZero (recipeReviews db r.id)
      && r.review_count == (recipeReviews db r.id).length)

/-- Executable check: every recipe has exactly one search-index row and
its text is the concatenation of the recipe's current fields. -/
def searchIndexOk (db : DB) : Bool :=
  db.recipes.all (fun r =>
    ((db.recipe_search_index.filter (fun e => e.recipe_id == r.id)).map
      (fun e => e.search_text)) == [searchTextOf r])

/-! ## Concrete sample states used by witnesses and counterexamples -/

/-- A sample recipe row (modelled on the seeded "Better Than Sex Fruit"). -/
def sampleRecipe : Recipe :=
  ⟨1, "fruit", "Better Than Sex Fruit", "A creamy blend", "[Pineapple]", "[Mix]",
    "[no-bake]", 0, 0, "published", false, 0, 0⟩

/-- State with a stale count on category 5 and the association row present. -/
def dbC1del : DB :=
  ⟨[⟨5, "desserts", "Desserts", none, 1, 7, true, 0, 0⟩,
    ⟨6, "lunch", "Lunch", none, 2, 0, true, 0, 0⟩],
   [sampleRecipe], [⟨40, 1, 5, 0⟩], [], [], 100⟩

/-- State with a stale count on category 5 and no association rows. -/
def dbC1ins : DB :=
  ⟨[⟨5, "desserts", "Desserts", none, 1, 7, true, 0, 0⟩,
    ⟨6, "lunch", "Lunch", none, 2, 0, true, 0, 0⟩],
   [sampleRecipe], [], [], [], 100⟩

/-- Scenario start: one recipe, zero reviews, rating 0, count 0. -/
def dbS0 : DB := ⟨[], [sampleRecipe], [], [], [], 100⟩

/-- After inserting a rating-5 review (engine-assigned id 100). -/
def dbS1 : DB := (insertReview dbS0 1 "Ann" none 5 none none "published" 1).getD dbS0

/-- After further inserting a rating-4 review (engine-assigned id 101). -/
def dbS2 : DB := (insertReview dbS1 1 "Bob" none 4 none none "published" 2).getD dbS1

/-- After deleting the rating-5 review (id 100). -/
def dbS3 : DB := deleteReview dbS2 100

/-- Consistent state: one published rating-5 review, stored rating 5. -/
def dbC2pre : DB :=
  ⟨[], [{ sampleRecipe with rating := 5, review_count := 1 }], [],
   [⟨50, 1, "Ann", none, 5, none, none, 0, "published", 0⟩], [], 100⟩

/-- `dbC2pre` after a direct insert of a rating-3 review with status
`'pending'` (the schema permits it; the trigger still fires). -/
def dbC2post : DB := (insertReview dbC2pre 1 "Eve" none 3 none none "pending" 1).getD dbC2pre

/-- `dbS0` with its search index seeded. -/
def dbC5seed : DB := seedSearchIndex dbS0 0

/-- A second recipe to create after seeding. -/
def newRecipe : Recipe :=
  ⟨0, "tacos", "Tacos", "Spicy", "[Beef]", "[Cook]", "[mex]", 0, 0, "published", false, 0, 0⟩

/-- `dbC5seed` after creating `newRecipe` (engine-assigned id 101). -/
def dbC5post : DB := (createRecipe dbC5seed newRecipe).getD dbC5seed

/-- A valid review request body. -/
def goodBody : ReviewBody := ⟨"Ann", none, 5, none, none⟩

/-- A review request body with an out-of-range rating. -/
def badBody : ReviewBody := ⟨"Ann", none, 9, none, none⟩

/-- The rational 9/2 = 4.5: inside the range [1,5] but not an integer. -/
def halfRat : Rat := ⟨9, 2, by decide, by decide⟩

/-- A review request body carrying the non-integer rating 9/2. -/
def halfBody : ReviewBody := ⟨"Ann", none, halfRat, none, none⟩

/-- `dbS0` after the Worker `addReview` path accepts `halfBody`. -/
def dbC9post : DB :=
  match addReview dbS0 "fruit" halfBody 4 with
  | Except.ok d => d
  | Except.error _ => dbS0

/-- `dbS0` after the Worker `addReview` path accepts `goodBody`. -/
def dbC10post : DB :=
  match addReview dbS0 "fruit" goodBody 4 with
  | Except.ok d => d
  | Except.error _ => dbS0


/-! ## Shared list lemmas -/

/-- Filtering by `q` after removing the `p`-rows changes nothing when every
`q`-row is not a `p`-row. -/
theorem filter_not_filter {α} (p q : α → Bool) :
    ∀ l : List α, (∀ a ∈ l, q a = true → p a = false) →
      (l.filter (fun a => !(p a))).filter q = l.filter q := by
  intro l
  induction l with
  | nil => intro _; rfl
  | cons a t ih =>
    intro h
    have ht := ih (fun x hx => h x (List.mem_cons_of_mem a hx))
    cases hq : q a with
    | true =>
      have hp := h a (List.mem_cons_self a t) hq
      simp [List.filter_cons, hp, hq, ht]
    | false =>
      cases hp : p a with
      | true => simp [List.filter_cons, hp, hq, ht]
      | false => simp [List.filter_cons, hp, hq, ht]

/-- No `p`-row survives the removal of the `p`-rows. -/
theorem filter_self_filter_not {α} (p : α → Bool) :
    ∀ l : List α, (l.filter (fun a => !(p a))).filter p = [] := by
  intro l
  induction l with
  | nil => rfl
  | cons a t ih =>
    cases hp : p a with
    | true => simp [List.filter_cons, hp, ih]
    | false => simp [List.filter_cons, hp, ih]

/-- `any` is false over a list from which all `p`-rows were removed. -/
theorem any_filter_not {α} (p : α → Bool) :
    ∀ l : List α, (l.filter (fun a => !(p a))).any p = false := by
  intro l
  induction l with
  | nil => rfl
  | cons a t ih =>
    cases hp : p a with
    | true => simp [List.filter_cons, hp, ih]
    | false => simp [List.filter_cons, hp, ih]

/-- `find?` by key through a keyed in-place map. -/
theorem find?_map_keyed {α} (key : α → Nat) (rid : Nat) (u : α → α)
    (hu : ∀ s, key s = rid → key (u s) = rid) :
    ∀ l : List α,
      (l.map (fun s => if key s == rid then u s else s)).find? (fun s => key s == rid)
        = (l.find? (fun s => key s == rid)).map u := by
  intro l
  induction l with
  | nil => rfl
  | cons a t ih =>
    by_cases h : key a = rid
    · have hpa : ((key a == rid) = true) := by simpa using h
      have hua : ((key (u a) == rid) = true) := by simpa using hu a h
      have e1 : (u a :: t.map (fun s => if key s == rid then u s else s)).find?
          (fun s => key s == rid) = some (u a) :=
        List.find?_cons_of_pos _ hua
      have e2 : (a :: t).find? (fun s => key s == rid) = some a :=
        List.find?_cons_of_pos _ hpa
      rw [List.map_cons, if_pos hpa, e1, e2, Option.map_some']
    · have hpa : ¬ ((key a == rid) = true) := by simpa using h
      have hb : ((key a == rid) = false) := by simpa using h
      have e1 : (a :: t.map (fun s => if key s == rid then u s else s)).find?
          (fun s => key s == rid)
          = (t.map (fun s => if key s == rid then u s else s)).find?
            (fun s => key s == rid) :=
        List.find?_cons_of_neg _ hpa
      have e2 : (a :: t).find? (fun s => key s == rid) = t.find? (fun s => key s == rid) :=
        List.find?_cons_of_neg _ hpa
      rw [List.map_cons, if_neg hpa, e1, e2]
      exact ih

/-- Two members of a list with `Nodup` keys and equal keys are equal. -/
theorem eq_of_nodup_key {α} (key : α → Nat) :
    ∀ l : List α, (l.map key).Nodup →
      ∀ x ∈ l, ∀ y ∈ l, key x = key y → x = y := by
  intro l
  induction l with
  | nil => intro _ x hx; cases hx
  | cons a t ih =>
    intro hn x hx y hy hk
    rw [List.map_cons, List.nodup_cons] at hn
    rcases List.mem_cons.mp hx with rfl | hx'
    · rcases List.mem_cons.mp hy with rfl | hy'
      · rfl
      · exact absurd (hk ▸ List.mem_map_of_mem key hy') hn.1
    · rcases List.mem_cons.mp hy with rfl | hy'
      · exact absurd (hk ▸ List.mem_map_of_mem key hx') hn.1
      · exact ih hn.2 x hx' y hy' hk

/-- With `Nodup` keys, filtering a list for the key of a member returns
exactly that member. -/
theorem filter_key_eq_singleton {α} (key : α → Nat) :
    ∀ l : List α, (l.map key).Nodup → ∀ r ∈ l,
      l.filter (fun x => key x == key r) = [r] := by
  intro l
  induction l with
  | nil => intro _ r hr; cases hr
  | cons a t ih =>
    intro hn r hr
    rw [List.map_cons, List.nodup_cons] at hn
    rcases List.mem_cons.mp hr with rfl | hr'
    · have : t.filter (fun x => key x == key r) = [] := by
        rw [List.filter_eq_nil_iff]
        intro x hx
        simp only [beq_iff_eq]
        intro hkx
        exact hn.1 (hkx ▸ List.mem_map_of_mem key hx)
      simp [List.filter_cons, this]
    · have hne : key a ≠ key r := by
        intro hk
        exact hn.1 (hk ▸ List.mem_map_of_mem key hr')
      simp [List.filter_cons, hne, ih hn.2 r hr']

/-! ## Search-index materializer lemmas -/

/-- The materializer touches only the index and the id counter. -/
theorem materialize_recipes (db : DB) (rid now : Nat) :
    (materializeSearchIndex db rid now).recipes = db.recipes := by
  cases h : db.recipes.find? (fun x => x.id == rid) with
  | none => simp [materializeSearchIndex, h]
  | some r => simp [materializeSearchIndex, h]

/-- After a delete-and-reinsert of the `rid` rows, the rows for `rid` are
exactly the one appended entry. -/
theorem filter_rebuild (l : List SearchIndexEntry) (e : SearchIndexEntry) (rid : Nat)
    (he : e.recipe_id = rid) :
    (l.filter (fun x => !(x.recipe_id == rid)) ++ [e]).filter
      (fun x => x.recipe_id == rid) = [e] := by
  rw [List.filter_append, filter_self_filter_not]
  simp [he]

/-- After a delete-and-reinsert of the `rid` rows, the rows for other
recipe ids are untouched. -/
theorem filter_rebuild_other (l : List SearchIndexEntry) (e : SearchIndexEntry)
    (rid x : Nat) (he : e.recipe_id = rid) (hx : x ≠ rid) :
    (l.filter (fun a => !(a.recipe_id == rid)) ++ [e]).filter
      (fun a => a.recipe_id == x) = l.filter (fun a => a.recipe_id == x) := by
  rw [List.filter_append, filter_not_filter _ _ _ ?side]
  case side =>
    intro a _ ha
    simp only [beq_iff_eq] at ha ⊢
    simp [ha, hx]
  have : (e.recipe_id == x) = false := by simp [he, Ne.symm hx]
  simp [this]

/-- Running the materializer for a present recipe leaves exactly one row
for it, holding the recipe's current concatenated text. -/
theorem texts_materialize (db : DB) (rid now : Nat) (r : Recipe)
    (h : db.recipes.find? (fun x => x.id == rid) = some r) :
    ((materializeSearchIndex db rid now).recipe_search_index.filter
      (fun e => e.recipe_id == rid)).map (fun e => e.search_text)
      = [searchTextOf r] := by
  simp only [materializeSearchIndex, h]
  rw [filter_rebuild db.recipe_search_index ⟨db.seq, rid, searchTextOf r, now⟩ rid rfl]
  rfl

/-- C6: the search-index materialization is idempotent — running the
trigger body twice in a row on unchanged recipe content leaves, for the
affected recipe, a `search_text` byte-identical to the result of the
first run. -/
theorem search_materializer_idempotent (db : DB) (rid n1 n2 : Nat) :
    ((materializeSearchIndex (materializeSearchIndex db rid n1) rid n2).recipe_search_index.filter
        (fun e => e.recipe_id == rid)).map (fun e => e.search_text)
      = ((materializeSearchIndex db rid n1).recipe_search_index.filter
          (fun e => e.recipe_id == rid)).map (fun e => e.search_text) := by
  cases h : db.recipes.find? (fun x => x.id == rid) with
  | none =>
    have h0 : materializeSearchIndex db rid n1 = db := by
      simp [materializeSearchIndex, h]
    have h0' : materializeSearchIndex db rid n2 = db := by
      simp [materializeSearchIndex, h]
    rw [h0, h0']
  | some r =>
    have h2 : (materializeSearchIndex db rid n1).recipes.find? (fun x => x.id == rid)
        = some r := by
      rw [materialize_recipes]; exact h
    rw [texts_materialize _ _ n2 r h2, texts_materialize _ _ n1 r h]

/-- C7: deleting a recipe removes all of its association rows, all of its
reviews and all of its search-index rows (ON DELETE CASCADE); deleting a
category removes its association rows but leaves the recipes table
untouched. -/
theorem deletion_cascade (db : DB) (rid cid : Nat) :
    ((deleteRecipe db rid).recipes.any (fun r => r.id == rid)) = false
    ∧ ((deleteRecipe db rid).recipe_categories.any (fun a => a.recipe_id == rid)) = false
    ∧ ((deleteRecipe db rid).reviews.any (fun v => v.recipe_id == rid)) = false
    ∧ ((deleteRecipe db rid).recipe_search_index.any (fun e => e.recipe_id == rid)) = false
    ∧ ((deleteCategory db cid).categories.any (fun c => c.id == cid)) = false
    ∧ ((deleteCategory db cid).recipe_categories.any (fun a => a.category_id == cid)) = false
    ∧ (deleteCategory db cid).recipes = db.recipes := by
  refine ⟨?_, ?_, ?_, ?_, ?_, ?_, rfl⟩ <;> exact any_filter_not _ _

/-! ## Category recount (C1) -/

/-- The recount trigger body does not change the association table. -/
theorem assocCount_recount (db : DB) (cid x : Nat) :
    assocCount (recountCategory db cid) x = assocCount db x := rfl

/-- The recount trigger body establishes the count invariant for the whole
`categories` table, provided only the non-affected categories were correct
before: the affected category is set to the true count whatever its prior
stored value was. -/
theorem categoryCountsOk_recount (db : DB) (cid : Nat)
    (hpre : ∀ c ∈ db.categories, c.id ≠ cid → c.recipe_count = assocCount db c.id) :
    categoryCountsOk (recountCategory db cid) = true := by
  simp only [categoryCountsOk, List.all_eq_true]
  intro c' hc'
  have hc'' : c' ∈ (recountCategory db cid).categories := hc'
  simp only [recountCategory, List.mem_map] at hc''
  obtain ⟨c, hc, rfl⟩ := hc''
  by_cases h : c.id = cid
  · have hpos : ((c.id == cid) = true) := by simpa using h
    rw [if_pos hpos]
    simp [assocCount_recount, h]
  · have hneg : ¬ ((c.id == cid) = true) := by simpa using h
    rw [if_neg hneg]
    simp only [beq_iff_eq, assocCount_recount]
    exact hpre c hc h

/-- C1: after an insert or a delete of an association row, the affected
category's stored `recipe_count` is recomputed as a full `COUNT(*)` keyed
on that category id — correct regardless of the previously stored value —
and every category whose stored count was correct beforehand remains
correct, so the invariant `recipe_count = count of association rows with
this category_id` holds for the whole table afterwards. -/
theorem category_recipe_count_maintained (db : DB) (rid cid now : Nat)
    (hpre : ∀ c ∈ db.categories, c.id ≠ cid → c.recipe_count = assocCount db c.id) :
    (∀ db', insertRecipeCategory db rid cid now = some db' → categoryCountsOk db' = true)
    ∧ ((∃ a ∈ db.recipe_categories, a.recipe_id = rid ∧ a.category_id = cid) →
        categoryCountsOk (deleteRecipeCategory db rid cid) = true) := by
  constructor
  · intro db' hins
    simp only [insertRecipeCategory] at hins
    split_ifs at hins with h1 h2 h3
    obtain rfl : recountCategory
        { db with
          recipe_categories := db.recipe_categories ++ [⟨db.seq, rid, cid, now⟩],
          seq := db.seq + 1 } cid = db' := by
      injection hins
    apply categoryCountsOk_recount
    intro c hc hne
    have hcount : assocCount
        { db with
          recipe_categories := db.recipe_categories ++ [⟨db.seq, rid, cid, now⟩],
          seq := db.seq + 1 } c.id = assocCount db c.id := by
      simp only [assocCount, List.filter_append]
      have : (([(⟨db.seq, rid, cid, now⟩ : RecipeCategory)]).filter
          (fun a => a.category_id == c.id)) = [] := by
        simp [Ne.symm hne]
      simp [this]
    rw [hcount]
    exact hpre c hc hne
  · rintro ⟨a, ha, har, hac⟩
    have hfound : db.recipe_categories.any
        (fun a => a.recipe_id == rid && a.category_id == cid) = true := by
      rw [List.any_eq_true]
      exact ⟨a, ha, by simp [har, hac]⟩
    simp only [deleteRecipeCategory, hfound, if_true]
    apply categoryCountsOk_recount
    intro c hc hne
    have hcount : assocCount
        { db with recipe_categories := db.recipe_categories.filter (fun a => !(a.recipe_id == rid && a.category_id == cid)) } c.id
        = assocCount db c.id := by
      simp only [assocCount]
      rw [filter_not_filter _ _ _ ?side]
      case side =>
        intro x _ hx
        simp only [beq_iff_eq] at hx
        simp [hx]
        exact fun _ => hne
    rw [hcount]
    exact hpre c hc hne

/-! ## Review aggregate recompute (C2, C3) -/

/-- A true `any` yields a successful `find?`. -/
theorem find?_isSome_of_any {α} (p : α → Bool) :
    ∀ l : List α, l.any p = true → ∃ x, l.find? p = some x := by
  intro l
  induction l with
  | nil => intro h; simp at h
  | cons a t ih =>
    intro h
    cases hp : p a with
    | true => exact ⟨a, List.find?_cons_of_pos t hp⟩
    | false =>
      rw [List.any_cons, hp, Bool.false_or] at h
      obtain ⟨x, hx⟩ := ih h
      refine ⟨x, ?_⟩
      rw [List.find?_cons_of_neg t (by simp [hp]), hx]

/-- The rating recompute does not change the reviews table. -/
theorem recipeReviews_recompute (db : DB) (rid x : Nat) :
    recipeReviews (recomputeRecipeRating db rid) x = recipeReviews db x := rfl

/-- `find?` by id through the rating-recompute map. -/
theorem find?_recompute (db : DB) (rid : Nat) :
    (recomputeRecipeRating db rid).recipes.find? (fun r => r.id == rid)
      = (db.recipes.find? (fun r => r.id == rid)).map
        (fun r => { r with
          rating := avgOrZero (recipeReviews db rid),
          review_count := (recipeReviews db rid).length }) :=
  find?_map_keyed (fun r => r.id) rid
    (fun r => { r with
      rating := avgOrZero (recipeReviews db rid),
      review_count := (recipeReviews db rid).length })
    (fun _ h => h) db.recipes

/-- After the recompute trigger body, the affected (present) recipe stores
exactly the mean and the count over its current review rows. -/
theorem stored_of_recompute (db : DB) (rid : Nat) (r0 : Recipe)
    (h : db.recipes.find? (fun r => r.id == rid) = some r0) :
    storedRating (recomputeRecipeRating db rid) rid = avgOrZero (recipeReviews db rid)
    ∧ storedReviewCount (recomputeRecipeRating db rid) rid
      = (recipeReviews db rid).length := by
  constructor
  · simp only [storedRating, find?_recompute, h, Option.map_some']
  · simp only [storedReviewCount, find?_recompute, h, Option.map_some']

/-- C3: on review insertion the affected recipe's `rating` is recomputed
as the mean over ALL of its reviews (no status filter) and `review_count`
as their count; on deletion the same recompute runs and, with zero
reviews left, `rating` resolves to 0 (via the COALESCE) and
`review_count` to 0; in particular the concrete 5-then-4-then-delete-5
scenario yields ratings 5, 9/2, 4 with counts 1, 2, 1. -/
theorem review_aggregates_recompute (db : DB) (rid : Nat) (name : String)
    (email : Option String) (rating : Rat) (title comment : Option String)
    (status : String) (now reviewId : Nat) :
    (∀ db', insertReview db rid name email rating title comment status now = some db' →
        storedRating db' rid = avgOrZero (recipeReviews db' rid)
        ∧ storedReviewCount db' rid = (recipeReviews db' rid).length)
    ∧ (∀ v, db.reviews.find? (fun w => w.id == reviewId) = some v →
        db.recipes.any (fun r => r.id == v.recipe_id) = true →
        storedRating (deleteReview db reviewId) v.recipe_id
            = avgOrZero (recipeReviews (deleteReview db reviewId) v.recipe_id)
          ∧ storedReviewCount (deleteReview db reviewId) v.recipe_id
            = (recipeReviews (deleteReview db reviewId) v.recipe_id).length
          ∧ ((recipeReviews (deleteReview db reviewId) v.recipe_id).length = 0 →
              storedRating (deleteReview db reviewId) v.recipe_id = 0))
    ∧ (storedRating dbS1 1 = 5 ∧ storedReviewCount dbS1 1 = 1)
    ∧ (storedRating dbS2 1 = (9 : Rat) / 2 ∧ storedReviewCount dbS2 1 = 2)
    ∧ (storedRating dbS3 1 = 4 ∧ storedReviewCount dbS3 1 = 1) := by
  refine ⟨?_, ?_, ?_, ?_, ?_⟩
  · intro db' hins
    simp only [insertReview] at hins
    split_ifs at hins with h1 h2 h3
    obtain ⟨r0, hr0⟩ := find?_isSome_of_any _ _ h3
    obtain rfl : recomputeRecipeRating
        { db with
          reviews := db.reviews
            ++ [⟨db.seq, rid, name, email, rating, title, comment, 0, status, now⟩],
          seq := db.seq + 1 } rid = db' := by
      injection hins
    exact stored_of_recompute _ rid r0 hr0
  · intro v hv hany
    obtain ⟨r0, hr0⟩ := find?_isSome_of_any _ _ hany
    have hdel : deleteReview db reviewId
        = recomputeRecipeRating
          { db with reviews := db.reviews.filter (fun w => !(w.id == reviewId)) }
          v.recipe_id := by
      simp only [deleteReview, hv]
    rw [hdel, recipeReviews_recompute]
    have hsr := stored_of_recompute
      { db with reviews := db.reviews.filter (fun w => !(w.id == reviewId)) }
      v.recipe_id r0 hr0
    refine ⟨hsr.1, hsr.2, ?_⟩
    intro hlen
    rw [hsr.1, avgOrZero, if_pos hlen]
  · constructor
    · simp [dbS1, dbS0, insertReview, recomputeRecipeRating, storedRating,
        recipeReviews, avgOrZero, List.find?, sampleRecipe]
    · simp [dbS1, dbS0, insertReview, recomputeRecipeRating, storedReviewCount,
        recipeReviews, avgOrZero, List.find?, sampleRecipe]
  · constructor
    · simp [dbS2, dbS1, dbS0, insertReview, recomputeRecipeRating, storedRating,
        recipeReviews, avgOrZero, List.find?, sampleRecipe]
      norm_num
    · simp [dbS2, dbS1, dbS0, insertReview, recomputeRecipeRating, storedReviewCount,
        recipeReviews, avgOrZero, List.find?, sampleRecipe]
  · constructor
    · simp [dbS3, dbS2, dbS1, dbS0, deleteReview, insertReview, recomputeRecipeRating,
        storedRating, recipeReviews, avgOrZero, List.find?, List.filter, sampleRecipe]
    · simp [dbS3, dbS2, dbS1, dbS0, deleteReview, insertReview, recomputeRecipeRating,
        storedReviewCount, recipeReviews, avgOrZero, List.find?, List.filter, sampleRecipe]

/-- Concrete run of the C3 statement: the insert branch applied to the
first scenario step and the delete branch applied to the third. -/
theorem review_aggregates_recompute_witness :
    (storedRating dbS1 1 = avgOrZero (recipeReviews dbS1 1)
      ∧ storedReviewCount dbS1 1 = (recipeReviews dbS1 1).length)
    ∧ (storedRating dbS3 1 = avgOrZero (recipeReviews dbS3 1)
      ∧ storedReviewCount dbS3 1 = (recipeReviews dbS3 1).length
      ∧ ((recipeReviews dbS3 1).length = 0 → storedRating dbS3 1 = 0)) :=
  ⟨(review_aggregates_recompute dbS0 1 "Ann" none 5 none none "published" 1 0).1 dbS1 rfl,
   (review_aggregates_recompute dbS2 1 "x" none 1 none none "published" 0 100).2.1
     ⟨100, 1, "Ann", none, 5, none, none, 0, "published", 1⟩ rfl (by decide)⟩

/-- Concrete run of the C1 statement: an insert against a stale stored
count (self-healing) and a delete of an existing association row. -/
theorem category_recipe_count_maintained_witness :
    categoryCountsOk ((insertRecipeCategory dbC1ins 1 5 3).getD dbC1ins) = true
    ∧ categoryCountsOk (deleteRecipeCategory dbC1del 1 5) = true :=
  ⟨(category_recipe_count_maintained dbC1ins 1 5 3 (by decide)).1 _ rfl,
   (category_recipe_count_maintained dbC1del 1 5 0 (by decide)).2 (by decide)⟩

/-- C2 is false as stated: inserting a `'pending'` review moves the
stored rating away from the mean of the published reviews, because the
trigger averages ALL reviews with no status filter. Concretely, with one
published rating-5 review stored, a direct insert of a pending rating-3
review leaves stored rating 4 while the published mean is 5. -/
theorem rating_ignores_review_status_counterexample :
    storedRating dbC2post 1 ≠ avgOrZero (publishedReviews dbC2post 1) := by
  simp [dbC2post, dbC2pre, insertReview, recomputeRecipeRating, storedRating,
    recipeReviews, publishedReviews, avgOrZero, List.find?, List.filter, sampleRecipe]
  norm_num

/-- The recompute trigger body establishes the all-reviews invariant for
the whole `recipes` table, provided the non-affected recipes were correct
before. -/
theorem ratingsOk_recompute (db : DB) (rid : Nat)
    (hpre : ∀ r ∈ db.recipes, r.id ≠ rid →
      r.rating = avgOrZero (recipeReviews db r.id)
      ∧ r.review_count = (recipeReviews db r.id).length) :
    ratingsOk (recomputeRecipeRating db rid) = true := by
  simp only [ratingsOk, List.all_eq_true]
  intro r' hr'
  have hr'' : r' ∈ (recomputeRecipeRating db rid).recipes := hr'
  simp only [recomputeRecipeRating, List.mem_map] at hr''
  obtain ⟨r, hr, rfl⟩ := hr''
  by_cases h : r.id = rid
  · have hpos : ((r.id == rid) = true) := by simpa using h
    rw [if_pos hpos]
    simp [h, recipeReviews_recompute]
  · have hneg : ¬ ((r.id == rid) = true) := by simpa using h
    rw [if_neg hneg]
    simp only [recipeReviews_recompute, Bool.and_eq_true, beq_iff_eq]
    exact ⟨(hpre r hr h).1, (hpre r hr h).2⟩

/-- C2 (amended): after every review insert or delete, every recipe's
stored `rating` is the arithmetic mean over ALL of that recipe's reviews
regardless of status (0 when none remain) and `review_count` is their
count — the `published`-only version is refuted by
`rating_ignores_review_status_counterexample`. Hypotheses: the invariant
held before the write and review ids are unique (the primary key). -/
theorem rating_invariant_all_reviews (db : DB) (rid : Nat) (name : String)
    (email : Option String) (rating : Rat) (title comment : Option String)
    (status : String) (now reviewId : Nat)
    (hinv : ratingsOk db = true)
    (hnodup : (db.reviews.map (fun v => v.id)).Nodup) :
    (∀ db', insertReview db rid name email rating title comment status now = some db' →
        ratingsOk db' = true)
    ∧ ratingsOk (deleteReview db reviewId) = true := by
  rw [ratingsOk, List.all_eq_true] at hinv
  constructor
  · intro db' hins
    simp only [insertReview] at hins
    split_ifs at hins with h1 h2 h3
    obtain rfl : recomputeRecipeRating
        { db with
          reviews := db.reviews
            ++ [⟨db.seq, rid, name, email, rating, title, comment, 0, status, now⟩],
          seq := db.seq + 1 } rid = db' := by
      injection hins
    apply ratingsOk_recompute
    intro r hr hne
    have hsame : recipeReviews
        { db with
          reviews := db.reviews
            ++ [⟨db.seq, rid, name, email, rating, title, comment, 0, status, now⟩],
          seq := db.seq + 1 } r.id = recipeReviews db r.id := by
      simp only [recipeReviews, List.filter_append]
      have : (([(⟨db.seq, rid, name, email, rating, title, comment, 0, status, now⟩ :
          Review)]).filter (fun v => v.recipe_id == r.id)) = [] := by
        simp [Ne.symm hne]
      simp [this]
    rw [hsame]
    have hrok := hinv r hr
    simp only [Bool.and_eq_true, beq_iff_eq] at hrok
    exact hrok
  · cases hv : db.reviews.find? (fun w => w.id == reviewId) with
    | none =>
      have : deleteReview db reviewId = db := by
        simp only [deleteReview, hv]
      rw [this, ratingsOk, List.all_eq_true]
      exact hinv
    | some v =>
      have hvp := List.find?_some hv
      have hvmem : v ∈ db.reviews := List.mem_of_find?_eq_some hv
      have hdel : deleteReview db reviewId
          = recomputeRecipeRating
            { db with reviews := db.reviews.filter (fun w => !(w.id == reviewId)) }
            v.recipe_id := by
        simp only [deleteReview, hv]
      rw [hdel]
      apply ratingsOk_recompute
      intro r hr hne
      have hsame : recipeReviews
          { db with reviews := db.reviews.filter (fun w => !(w.id == reviewId)) } r.id
          = recipeReviews db r.id := by
        simp only [recipeReviews]
        rw [filter_not_filter _ _ _ ?side]
        case side =>
          intro w hw hwr
          cases hwid : w.id == reviewId with
          | false => rfl
          | true =>
            have hw_id : w.id = reviewId := by simpa using hwid
            have hv_id : v.id = reviewId := by simpa using hvp
            have hwv : w = v := eq_of_nodup_key (fun x => x.id) db.reviews hnodup
              w hw v hvmem (by simp [hw_id, hv_id])
            have hvr : v.recipe_id = r.id := by
              rw [← hwv]
              simpa using hwr
            exact absurd hvr.symm hne
      rw [hsame]
      have hrok := hinv r hr
      simp only [Bool.and_eq_true, beq_iff_eq] at hrok
      exact hrok

/-- Concrete run of the amended C2 statement: insert a first review into
a consistent state, and delete the only review of a consistent state. -/
theorem rating_invariant_all_reviews_witness :
    ratingsOk dbS1 = true ∧ ratingsOk (deleteReview dbC2pre 50) = true :=
  ⟨(rating_invariant_all_reviews dbS0 1 "Ann" none 5 none none "published" 1 0
      (by simp [ratingsOk, dbS0, recipeReviews, avgOrZero, sampleRecipe])
      (by decide)).1 dbS1 rfl,
   (rating_invariant_all_reviews dbC2pre 1 "x" none 1 none none "published" 0 50
      (by simp [ratingsOk, dbC2pre, recipeReviews, avgOrZero, sampleRecipe, List.filter])
      (by decide)).2⟩

/-! ## Search index on update and creation (C4, C5) -/

/-- Removing the `p`-rows twice is the same as removing them once. -/
theorem filter_not_idem {α} (p : α → Bool) (l : List α) :
    (l.filter (fun a => !(p a))).filter (fun a => !(p a))
      = l.filter (fun a => !(p a)) :=
  filter_not_filter p (fun a => !(p a)) l (fun _ _ hq => by simpa using hq)

/-- A rebuild keeps exactly the previously surviving non-`rid` rows. -/
theorem filter_rebuild_keep (l : List SearchIndexEntry) (e : SearchIndexEntry)
    (rid : Nat) (he : e.recipe_id = rid) :
    (l.filter (fun x => !(x.recipe_id == rid)) ++ [e]).filter
      (fun x => !(x.recipe_id == rid)) = l.filter (fun x => !(x.recipe_id == rid)) := by
  rw [List.filter_append, filter_not_idem]
  simp [he]

/-- `find?` by id over the base-UPDATE row replacement. -/
theorem find?_replaced (db : DB) (rid : Nat) (newR : Recipe) (hid : newR.id = rid) :
    (db.recipes.map (fun s => if s.id == rid then newR else s)).find?
      (fun x => x.id == rid)
      = (db.recipes.find? (fun x => x.id == rid)).map (fun _ => newR) :=
  find?_map_keyed (fun s => s.id) rid (fun _ => newR) (fun _ _ => hid) db.recipes

/-- The recipes table after `updateRecipe`: the matching row carries the
client values `f`, then the timestamp trigger's `updated_at := now`. -/
theorem updateRecipe_recipes (db : DB) (rid now : Nat) (f : Recipe → Recipe) (r : Recipe)
    (h : db.recipes.find? (fun x => x.id == rid) = some r) :
    (updateRecipe db rid f now).recipes
      = db.recipes.map (fun s => if s.id == rid then
          { { f r with id := rid } with updated_at := now } else s) := by
  simp only [updateRecipe, h, materialize_recipes, List.map_map]
  apply List.map_congr_left
  intro s _
  by_cases hs : s.id = rid
  · simp [Function.comp, hs]
  · simp [Function.comp, hs]

/-- The search-index table after `updateRecipe`: all rows of the affected
recipe are deleted and one fresh row with the new concatenated text is
inserted. -/
theorem updateRecipe_index (db : DB) (rid now : Nat) (f : Recipe → Recipe) (r : Recipe)
    (h : db.recipes.find? (fun x => x.id == rid) = some r) :
    (updateRecipe db rid f now).recipe_search_index
      = db.recipe_search_index.filter (fun e => !(e.recipe_id == rid))
        ++ [⟨db.seq, rid, searchTextOf { f r with id := rid }, now⟩] := by
  have hf1 : (db.recipes.map (fun s => if s.id == rid then { f r with id := rid } else s)).find?
      (fun x => x.id == rid) = some { f r with id := rid } := by
    have := find?_replaced db rid { f r with id := rid } rfl
    rw [h, Option.map_some'] at this
    exact this
  simp only [updateRecipe, h, materializeSearchIndex, hf1]

/-- C4: on every update of a recipe row, the search-index rows for that
recipe id are replaced by exactly one new row whose `search_text` is the
lowercase space-joined concatenation of the new title, description, tags,
ingredients and instructions; rows of other recipes are untouched. -/
theorem search_index_rebuilt_on_update (db : DB) (rid now : Nat)
    (f : Recipe → Recipe) (r : Recipe)
    (h : db.recipes.find? (fun x => x.id == rid) = some r) :
    (((updateRecipe db rid f now).recipe_search_index.filter
        (fun e => e.recipe_id == rid)).map (fun e => e.search_text)
      = [searchTextOf { f r with id := rid }])
    ∧ ((updateRecipe db rid f now).recipe_search_index.filter
        (fun e => !(e.recipe_id == rid))
      = db.recipe_search_index.filter (fun e => !(e.recipe_id == rid))) := by
  rw [updateRecipe_index db rid now f r h]
  constructor
  · rw [filter_rebuild db.recipe_search_index
      ⟨db.seq, rid, searchTextOf { f r with id := rid }, now⟩ rid rfl]
    rfl
  · exact filter_rebuild_keep db.recipe_search_index
      ⟨db.seq, rid, searchTextOf { f r with id := rid }, now⟩ rid rfl

/-- Concrete run of the C4 statement: retitling the sample recipe. -/
theorem search_index_rebuilt_on_update_witness :
    (((updateRecipe dbS0 1 (fun r => { r with title := "Amazing Fruit Salad" }) 7).recipe_search_index.filter
        (fun e => e.recipe_id == 1)).map (fun e => e.search_text)
      = [searchTextOf { sampleRecipe with title := "Amazing Fruit Salad", id := 1 }])
    ∧ ((updateRecipe dbS0 1 (fun r => { r with title := "Amazing Fruit Salad" }) 7).recipe_search_index.filter
        (fun e => !(e.recipe_id == 1))
      = dbS0.recipe_search_index.filter (fun e => !(e.recipe_id == 1))) :=
  search_index_rebuilt_on_update dbS0 1 7
    (fun r => { r with title := "Amazing Fruit Salad" }) sampleRecipe rfl

/-- C5 is false as stated: a recipe created after the one-time seeding has
NO search-index row until its first update, because the schema defines no
AFTER INSERT trigger on `recipes`. Concretely, after seeding a one-recipe
store and creating a second recipe (engine-assigned id 101), the new
recipe row exists but has zero index rows instead of exactly one. -/
theorem search_index_missing_after_create_counterexample :
    (dbC5post.recipes.any (fun r => r.id == 101)) = true
    ∧ (dbC5post.recipe_search_index.filter (fun e => e.recipe_id == 101)).length = 0 := by
  constructor
  · decide
  · decide

/-- Texts of the seeded index rows for one recipe id, by seeding order. -/
theorem seedEntries_texts (now x : Nat) :
    ∀ (l : List Recipe) (seq : Nat),
      ((seedEntries seq now l).filter (fun e => e.recipe_id == x)).map
        (fun e => e.search_text)
        = (l.filter (fun s => s.id == x)).map searchTextOf := by
  intro l
  induction l with
  | nil => intro _; rfl
  | cons a t ih =>
    intro seq
    cases hx : a.id == x with
    | true => simp [seedEntries, List.filter_cons, hx, ih (seq + 1)]
    | false => simp [seedEntries, List.filter_cons, hx, ih (seq + 1)]

/-- With unique recipe ids, filtering recipes by a member's id returns
exactly that member. -/
theorem filter_recipe_id_singleton (l : List Recipe)
    (hn : (l.map (fun x => x.id)).Nodup) (r : Recipe) (hr : r ∈ l) :
    l.filter (fun x => x.id == r.id) = [r] :=
  filter_key_eq_singleton (fun x => x.id) l hn r hr

/-- A keyed in-place row replacement does not change the rows filtered
under any other key. -/
theorem filter_key_map_update {α} (key : α → Nat) (rid x : Nat) (hx : x ≠ rid)
    (u : α → α) (hu : ∀ s, key s = rid → key (u s) = rid) :
    ∀ l : List α,
      (l.map (fun s => if key s == rid then u s else s)).filter (fun s => key s == x)
        = l.filter (fun s => key s == x) := by
  intro l
  induction l with
  | nil => rfl
  | cons a t ih =>
    by_cases ha : key a = rid
    · have h1 : ((key a == rid) = true) := by simpa using ha
      have h2 : ((key (u a) == x) = false) := by simp [hu a ha, Ne.symm hx]
      have h3 : ((key a == x) = false) := by simp [ha, Ne.symm hx]
      have e1 : (u a :: t.map (fun s => if key s == rid then u s else s)).filter
          (fun s => key s == x)
          = (t.map (fun s => if key s == rid then u s else s)).filter
            (fun s => key s == x) :=
        List.filter_cons_of_neg (by simp [h2])
      have e2 : (a :: t).filter (fun s => key s == x) = t.filter (fun s => key s == x) :=
        List.filter_cons_of_neg (by simp [h3])
      rw [List.map_cons, if_pos h1, e1, e2, ih]
    · have h1 : ¬ ((key a == rid) = true) := by simpa using ha
      rw [List.map_cons, if_neg h1]
      cases hax : (key a == x) with
      | true =>
        have e1 : (a :: t.map (fun s => if key s == rid then u s else s)).filter
            (fun s => key s == x)
            = a :: (t.map (fun s => if key s == rid then u s else s)).filter
              (fun s => key s == x) :=
          List.filter_cons_of_pos hax
        have e2 : (a :: t).filter (fun s => key s == x)
            = a :: t.filter (fun s => key s == x) :=
          List.filter_cons_of_pos hax
        rw [e1, e2, ih]
      | false =>
        have e1 : (a :: t.map (fun s => if key s == rid then u s else s)).filter
            (fun s => key s == x)
            = (t.map (fun s => if key s == rid then u s else s)).filter
              (fun s => key s == x) :=
          List.filter_cons_of_neg (by simp [hax])
        have e2 : (a :: t).filter (fun s => key s == x) = t.filter (fun s => key s == x) :=
          List.filter_cons_of_neg (by simp [hax])
        rw [e1, e2, ih]

/-- C5 (amended): the search-index lifecycle, stated per recipe with no
global-state hypothesis: (i) seeding an empty index gives every present
recipe exactly one row holding its current text; (ii) after any update of
a present recipe — including the first update of a recipe created after
seeding — the rows for its id are exactly one row holding the
concatenated text of the newly stored recipe row; (iii) an update leaves
every other recipe id's index rows and recipe rows untouched, so
previously current rows stay current in mixed states; (iv) creating a
recipe adds no index row, so none exists until its first update — the
original claim that a row exists immediately after creation is refuted by
`search_index_missing_after_create_counterexample`. -/
theorem search_index_lifecycle (db : DB) (rid now : Nat)
    (f : Recipe → Recipe) (r rc : Recipe) :
    (db.recipe_search_index = [] → (db.recipes.map (fun x => x.id)).Nodup →
      searchIndexOk (seedSearchIndex db now) = true)
    ∧ (db.recipes.find? (fun x => x.id == rid) = some r →
        ((updateRecipe db rid f now).recipe_search_index.filter
            (fun e => e.recipe_id == rid)).map (fun e => e.search_text)
          = [searchTextOf { { f r with id := rid } with updated_at := now }])
    ∧ (∀ x, x ≠ rid →
        (updateRecipe db rid f now).recipe_search_index.filter (fun e => e.recipe_id == x)
          = db.recipe_search_index.filter (fun e => e.recipe_id == x)
        ∧ (updateRecipe db rid f now).recipes.filter (fun s => s.id == x)
          = db.recipes.filter (fun s => s.id == x))
    ∧ (∀ db', createRecipe db rc = some db' →
        db'.recipe_search_index = db.recipe_search_index) := by
  refine ⟨?_, ?_, ?_, ?_⟩
  · intro hempty hnodup
    simp only [searchIndexOk, List.all_eq_true]
    intro s hs
    have hs' : s ∈ db.recipes := hs
    have hidx : (seedSearchIndex db now).recipe_search_index
        = seedEntries db.seq now db.recipes := by
      simp [seedSearchIndex, hempty]
    rw [hidx, seedEntries_texts now s.id db.recipes db.seq,
      filter_recipe_id_singleton db.recipes hnodup s hs']
    simp
  · intro hfind
    rw [updateRecipe_index db rid now f r hfind,
      filter_rebuild db.recipe_search_index
        ⟨db.seq, rid, searchTextOf { f r with id := rid }, now⟩ rid rfl]
    rfl
  · intro x hx
    cases hfind : db.recipes.find? (fun s => s.id == rid) with
    | none =>
      have hid : updateRecipe db rid f now = db := by
        simp only [updateRecipe, hfind]
      rw [hid]
      exact ⟨rfl, rfl⟩
    | some r0 =>
      constructor
      · rw [updateRecipe_index db rid now f r0 hfind]
        exact filter_rebuild_other db.recipe_search_index
          ⟨db.seq, rid, searchTextOf { f r0 with id := rid }, now⟩ rid x rfl hx
      · rw [updateRecipe_recipes db rid now f r0 hfind]
        exact filter_key_map_update (fun s : Recipe => s.id) rid x hx
          (fun _ => { { f r0 with id := rid } with updated_at := now })
          (fun _ _ => rfl) db.recipes
  · intro db' hcr
    simp only [createRecipe] at hcr
    split_ifs at hcr with h1
    obtain rfl : ({ db with
        recipes := db.recipes ++ [{ rc with id := db.seq }],
        seq := db.seq + 1 } : DB) = db' := by
      injection hcr
    rfl

/-- Concrete run of the amended C5 statement, on the mixed state
`dbC5post` (recipe 1 seeded and indexed, recipe 101 created after seeding
and unindexed): seeding, the first update of the fresh recipe 101, the
persistence of seeded recipe 1's rows across that update, and creation
adding no row. -/
theorem search_index_lifecycle_witness :
    searchIndexOk (seedSearchIndex dbS0 0) = true
    ∧ ((updateRecipe dbC5post 101 (fun s => { s with title := "Tacos Supreme" }) 9).recipe_search_index.filter
        (fun e => e.recipe_id == 101)).map (fun e => e.search_text)
      = [searchTextOf ⟨101, "tacos", "Tacos Supreme", "Spicy", "[Beef]", "[Cook]", "[mex]",
          0, 0, "published", false, 0, 9⟩]
    ∧ ((updateRecipe dbC5post 101 (fun s => { s with title := "Tacos Supreme" }) 9).recipe_search_index.filter
          (fun e => e.recipe_id == 1)
        = dbC5post.recipe_search_index.filter (fun e => e.recipe_id == 1)
      ∧ (updateRecipe dbC5post 101 (fun s => { s with title := "Tacos Supreme" }) 9).recipes.filter
          (fun s => s.id == 1)
        = dbC5post.recipes.filter (fun s => s.id == 1))
    ∧ dbC5post.recipe_search_index = dbC5seed.recipe_search_index :=
  ⟨(search_index_lifecycle dbS0 1 0 id sampleRecipe sampleRecipe).1 rfl (by decide),
   (search_index_lifecycle dbC5post 101 9 (fun s => { s with title := "Tacos Supreme" })
      { newRecipe with id := 101 } sampleRecipe).2.1 rfl,
   (search_index_lifecycle dbC5post 101 9 (fun s => { s with title := "Tacos Supreme" })
      { newRecipe with id := 101 } sampleRecipe).2.2.1 1 (by decide),
   (search_index_lifecycle dbC5seed 1 0 id sampleRecipe newRecipe).2.2.2 dbC5post rfl⟩

/-! ## Timestamp maintenance (C8) -/

/-- `find?` by id after `updateRecipe`: the stored row carries the client
values with `updated_at` forced to the trigger's current time. -/
theorem find?_updateRecipe (db : DB) (rid now : Nat) (f : Recipe → Recipe) (r : Recipe)
    (h : db.recipes.find? (fun x => x.id == rid) = some r) :
    (updateRecipe db rid f now).recipes.find? (fun x => x.id == rid)
      = some { { f r with id := rid } with updated_at := now } := by
  rw [updateRecipe_recipes db rid now f r h]
  have e := find?_map_keyed (fun s : Recipe => s.id) rid
    (fun _ => { { f r with id := rid } with updated_at := now })
    (fun _ _ => rfl) db.recipes
  rw [h, Option.map_some'] at e
  exact e

/-- The categories table after `updateCategory`: the matching row carries
the client values `u`, then the timestamp trigger's `updated_at := now`. -/
theorem updateCategory_categories (db : DB) (cid now : Nat)
    (u : Category → Category) (c : Category)
    (h : db.categories.find? (fun x => x.id == cid) = some c) :
    (updateCategory db cid u now).categories
      = db.categories.map (fun s => if s.id == cid then
          { { u c with id := cid } with updated_at := now } else s) := by
  simp only [updateCategory, h, List.map_map]
  apply List.map_congr_left
  intro s _
  by_cases hs : s.id = cid
  · simp [Function.comp, hs]
  · simp [Function.comp, hs]

/-- `find?` by id after `updateCategory`. -/
theorem find?_updateCategory (db : DB) (cid now : Nat)
    (u : Category → Category) (c : Category)
    (h : db.categories.find? (fun x => x.id == cid) = some c) :
    (updateCategory db cid u now).categories.find? (fun x => x.id == cid)
      = some { { u c with id := cid } with updated_at := now } := by
  rw [updateCategory_categories db cid now u c h]
  have e := find?_map_keyed (fun s : Category => s.id) cid
    (fun _ => { { u c with id := cid } with updated_at := now })
    (fun _ _ => rfl) db.categories
  rw [h, Option.map_some'] at e
  exact e

/-- C8: every update of a recipe or category row stores `updated_at :=
CURRENT_TIMESTAMP`, overriding any client-supplied value for that column
(`f`, `g`, `u`, `w` are arbitrary, so they may try to set `updated_at`);
consequently, across two successive updates at non-decreasing clock
readings the stored `updated_at` values are non-decreasing. -/
theorem updated_at_overridden (db : DB) (rid cid t1 t2 : Nat)
    (f g : Recipe → Recipe) (u w : Category → Category) (r : Recipe) (c : Category)
    (hr : db.recipes.find? (fun x => x.id == rid) = some r)
    (hc : db.categories.find? (fun x => x.id == cid) = some c)
    (ht : t1 ≤ t2) :
    recipeUpdatedAt (updateRecipe db rid f t1) rid = t1
    ∧ recipeUpdatedAt (updateRecipe (updateRecipe db rid f t1) rid g t2) rid = t2
    ∧ recipeUpdatedAt (updateRecipe db rid f t1) rid
        ≤ recipeUpdatedAt (updateRecipe (updateRecipe db rid f t1) rid g t2) rid
    ∧ categoryUpdatedAt (updateCategory db cid u t1) cid = t1
    ∧ categoryUpdatedAt (updateCategory (updateCategory db cid u t1) cid w t2) cid = t2
    ∧ categoryUpdatedAt (updateCategory db cid u t1) cid
        ≤ categoryUpdatedAt (updateCategory (updateCategory db cid u t1) cid w t2) cid := by
  have e1 := find?_updateRecipe db rid t1 f r hr
  have e2 := find?_updateRecipe (updateRecipe db rid f t1) rid t2 g _ e1
  have c1 := find?_updateCategory db cid t1 u c hc
  have c2 := find?_updateCategory (updateCategory db cid u t1) cid t2 w _ c1
  have k1 : recipeUpdatedAt (updateRecipe db rid f t1) rid = t1 := by
    simp [recipeUpdatedAt, e1]
  have k2 : recipeUpdatedAt (updateRecipe (updateRecipe db rid f t1) rid g t2) rid = t2 := by
    simp [recipeUpdatedAt, e2]
  have m1 : categoryUpdatedAt (updateCategory db cid u t1) cid = t1 := by
    simp [categoryUpdatedAt, c1]
  have m2 : categoryUpdatedAt (updateCategory (updateCategory db cid u t1) cid w t2) cid = t2 := by
    simp [categoryUpdatedAt, c2]
  refine ⟨k1, k2, ?_, m1, m2, ?_⟩
  · rw [k1, k2]; exact ht
  · rw [m1, m2]; exact ht

/-- Concrete run of the C8 statement: the clients try to force
`updated_at` to 999 and 777; the triggers store 3 then 4. -/
theorem updated_at_overridden_witness :
    recipeUpdatedAt (updateRecipe dbC1del 1 (fun r => { r with updated_at := 999 }) 3) 1 = 3
    ∧ recipeUpdatedAt (updateRecipe (updateRecipe dbC1del 1 (fun r => { r with updated_at := 999 }) 3) 1
        (fun r => { r with updated_at := 777 }) 4) 1 = 4
    ∧ recipeUpdatedAt (updateRecipe dbC1del 1 (fun r => { r with updated_at := 999 }) 3) 1
        ≤ recipeUpdatedAt (updateRecipe (updateRecipe dbC1del 1 (fun r => { r with updated_at := 999 }) 3) 1
            (fun r => { r with updated_at := 777 }) 4) 1
    ∧ categoryUpdatedAt (updateCategory dbC1del 5 (fun c => { c with updated_at := 999 }) 3) 5 = 3
    ∧ categoryUpdatedAt (updateCategory (updateCategory dbC1del 5 (fun c => { c with updated_at := 999 }) 3) 5
        (fun c => { c with updated_at := 777 }) 4) 5 = 4
    ∧ categoryUpdatedAt (updateCategory dbC1del 5 (fun c => { c with updated_at := 999 }) 3) 5
        ≤ categoryUpdatedAt (updateCategory (updateCategory dbC1del 5 (fun c => { c with updated_at := 999 }) 3) 5
            (fun c => { c with updated_at := 777 }) 4) 5 :=
  updated_at_overridden dbC1del 1 5 3 4
    (fun r => { r with updated_at := 999 }) (fun r => { r with updated_at := 777 })
    (fun c => { c with updated_at := 999 }) (fun c => { c with updated_at := 777 })
    sampleRecipe ⟨5, "desserts", "Desserts", none, 1, 7, true, 0, 0⟩
    rfl rfl (by decide)

/-! ## Rejected writes and the addReview path (C9, C10) -/

/-- C9 (amended): a review write violating a constraint is rejected in
full with no state change and no maintenance run — at the Worker layer, a
rating outside the numeric range [1,5] yields "Invalid review data" and
an unknown recipe slug yields "Recipe not found" before the INSERT; at
the store layer, the numeric CHECK on `rating` and the FOREIGN KEY on
`recipe_id` reject the INSERT statement (`none`) before its trigger can
run, so no aggregate field is touched. The original "not an integer in
[1,5]" wording is refuted by
`noninteger_rating_accepted_counterexample`: the non-STRICT column and the
numeric checks accept an in-range non-integer such as 9/2. -/
theorem invalid_writes_rejected (db : DB) (slug : String) (body : ReviewBody)
    (now rid : Nat) (name : String) (email : Option String) (rating : Rat)
    (title comment : Option String) (status : String) :
    (body.rating < 1 ∨ body.rating > 5 →
        addReview db slug body now = Except.error "Invalid review data")
    ∧ ((∀ r ∈ db.recipes, r.slug ≠ slug) → body.reviewer_name ≠ "" →
        1 ≤ body.rating → body.rating ≤ 5 →
        addReview db slug body now = Except.error "Recipe not found")
    ∧ (rating < 1 ∨ 5 < rating →
        insertReview db rid name email rating title comment status now = none)
    ∧ ((∀ r ∈ db.recipes, r.id ≠ rid) →
        insertReview db rid name email rating title comment status now = none) := by
  refine ⟨?_, ?_, ?_, ?_⟩
  · intro h
    have hc : (body.reviewer_name = "" ∨ body.rating = 0 ∨ body.rating < 1
        ∨ body.rating > 5) := by
      rcases h with h | h
      · exact Or.inr (Or.inr (Or.inl h))
      · exact Or.inr (Or.inr (Or.inr h))
    simp only [addReview, if_pos hc]
  · intro hnone hname h1 h5
    have hc : ¬ (body.reviewer_name = "" ∨ body.rating = 0 ∨ body.rating < 1
        ∨ body.rating > 5) := by
      push_neg
      have hne0 : body.rating ≠ 0 := by
        intro h0
        rw [h0] at h1
        norm_num at h1
      exact ⟨hname, hne0, h1, h5⟩
    have hfind : db.recipes.find? (fun r => r.slug == slug) = none := by
      rw [List.find?_eq_none]
      intro r hr
      simpa using hnone r hr
    simp only [addReview, if_neg hc, hfind]
  · intro h
    have hc : ¬ (1 ≤ rating ∧ rating ≤ 5) := by
      rintro ⟨ha, hb⟩
      rcases h with h | h
      · exact absurd ha (not_le.mpr h)
      · exact absurd hb (not_le.mpr h)
    simp only [insertReview, if_pos hc]
  · intro h
    have hany : ¬ (db.recipes.any (fun r => r.id == rid) = true) := by
      rw [List.any_eq_true]
      rintro ⟨r, hr, hpr⟩
      exact h r hr (by simpa using hpr)
    by_cases h1 : (1 ≤ rating ∧ rating ≤ 5)
    · by_cases h2 : (status = "pending" ∨ status = "published" ∨ status = "rejected")
      · simp only [insertReview, if_neg (not_not_intro h1), if_neg (not_not_intro h2),
          if_pos hany]
      · simp only [insertReview, if_neg (not_not_intro h1), if_pos h2]
    · simp only [insertReview, if_pos h1]

/-- Concrete run of the C9 statement: rating 9 rejected at both layers, a
missing slug and a missing recipe id rejected before any trigger. -/
theorem invalid_writes_rejected_witness :
    addReview dbS0 "fruit" badBody 4 = Except.error "Invalid review data"
    ∧ addReview dbS0 "nope" goodBody 4 = Except.error "Recipe not found"
    ∧ insertReview dbS0 1 "Ann" none 9 none none "published" 4 = none
    ∧ insertReview dbS0 77 "Ann" none 5 none none "published" 4 = none :=
  ⟨(invalid_writes_rejected dbS0 "fruit" badBody 4 1 "Ann" none 9 none none
      "published").1 (by decide),
   (invalid_writes_rejected dbS0 "nope" goodBody 4 1 "Ann" none 9 none none
      "published").2.1 (by decide) (by decide) (by decide) (by decide),
   (invalid_writes_rejected dbS0 "x" goodBody 4 1 "Ann" none 9 none none
      "published").2.2.1 (by decide),
   (invalid_writes_rejected dbS0 "x" goodBody 4 77 "Ann" none 5 none none
      "published").2.2.2 (by decide)⟩

/-- The rating recompute does not change the published-reviews filter. -/
theorem publishedReviews_recompute (db : DB) (rid x : Nat) :
    publishedReviews (recomputeRecipeRating db rid) x = publishedReviews db x := rfl

/-- C10: a review accepted by the Worker's `addReview` path is stored with
status `'published'` (the INSERT never sets `status`, so the schema
default applies): the new row is appended with status `'published'`, it
immediately appears in the published-reviews read filter, and the
recipe's stored `rating` and `review_count` already account for it. -/
theorem addReview_publishes_immediately (db : DB) (slug : String) (body : ReviewBody)
    (now : Nat) (r : Recipe) (db' : DB)
    (hr : db.recipes.find? (fun x => x.slug == slug) = some r)
    (h : addReview db slug body now = Except.ok db') :
    db'.reviews = db.reviews
      ++ [⟨db.seq, r.id, body.reviewer_name, body.reviewer_email, body.rating,
           body.title, body.comment, 0, "published", now⟩]
    ∧ publishedReviews db' r.id = publishedReviews db r.id
        ++ [⟨db.seq, r.id, body.reviewer_name, body.reviewer_email, body.rating,
             body.title, body.comment, 0, "published", now⟩]
    ∧ storedRating db' r.id = avgOrZero (recipeReviews db' r.id)
    ∧ storedReviewCount db' r.id = (recipeReviews db' r.id).length := by
  simp only [addReview] at h
  split_ifs at h with h1
  rw [hr] at h
  have hcheck : (1 ≤ body.rating ∧ body.rating ≤ 5) := by
    push_neg at h1
    exact ⟨h1.2.2.1, h1.2.2.2⟩
  have hst : (("published" : String) = "pending" ∨ ("published" : String) = "published"
      ∨ ("published" : String) = "rejected") := Or.inr (Or.inl rfl)
  have hany : db.recipes.any (fun x => x.id == r.id) = true := by
    rw [List.any_eq_true]
    exact ⟨r, List.mem_of_find?_eq_some hr, by simp⟩
  simp only [insertReview, if_neg (not_not_intro hcheck), if_neg (not_not_intro hst),
    if_neg (not_not_intro hany)] at h
  obtain rfl : recomputeRecipeRating
      { db with
        reviews := db.reviews
          ++ [⟨db.seq, r.id, body.reviewer_name, body.reviewer_email, body.rating,
               body.title, body.comment, 0, "published", now⟩],
        seq := db.seq + 1 } r.id = db' := by
    injection h
  obtain ⟨r0, hr0⟩ := find?_isSome_of_any _ _ hany
  refine ⟨rfl, ?_, ?_, ?_⟩
  · rw [publishedReviews_recompute]
    simp [publishedReviews, List.filter_append]
  · exact (stored_of_recompute
      { db with
        reviews := db.reviews
          ++ [⟨db.seq, r.id, body.reviewer_name, body.reviewer_email, body.rating,
               body.title, body.comment, 0, "published", now⟩],
        seq := db.seq + 1 } r.id r0 hr0).1
  · exact (stored_of_recompute
      { db with
        reviews := db.reviews
          ++ [⟨db.seq, r.id, body.reviewer_name, body.reviewer_email, body.rating,
               body.title, body.comment, 0, "published", now⟩],
        seq := db.seq + 1 } r.id r0 hr0).2

/-- Concrete run of the C10 statement: `goodBody` accepted for the sample
recipe. -/
theorem addReview_publishes_immediately_witness :
    dbC10post.reviews = dbS0.reviews
      ++ [⟨dbS0.seq, sampleRecipe.id, goodBody.reviewer_name, goodBody.reviewer_email,
           goodBody.rating, goodBody.title, goodBody.comment, 0, "published", 4⟩]
    ∧ publishedReviews dbC10post sampleRecipe.id = publishedReviews dbS0 sampleRecipe.id
        ++ [⟨dbS0.seq, sampleRecipe.id, goodBody.reviewer_name, goodBody.reviewer_email,
             goodBody.rating, goodBody.title, goodBody.comment, 0, "published", 4⟩]
    ∧ storedRating dbC10post sampleRecipe.id
        = avgOrZero (recipeReviews dbC10post sampleRecipe.id)
    ∧ storedReviewCount dbC10post sampleRecipe.id
        = (recipeReviews dbC10post sampleRecipe.id).length :=
  addReview_publishes_immediately dbS0 "fruit" goodBody 4 sampleRecipe dbC10post rfl rfl

/-- C9 is false as stated for non-integer ratings: 9/2 is not an integer
(denominator 2) yet lies inside [1,5], so it passes the Worker's range
check (`rating < 1 || rating > 5`) and the non-STRICT SQLite
`CHECK(rating >= 1 AND rating <= 5)`; the write is accepted, the state
changes, and the trigger aggregates the stored 9/2 — nothing is
rejected. -/
theorem noninteger_rating_accepted_counterexample :
    halfRat.den ≠ 1
    ∧ (1 ≤ halfRat ∧ halfRat ≤ 5)
    ∧ addReview dbS0 "fruit" halfBody 4 = Except.ok dbC9post
    ∧ dbC9post ≠ dbS0
    ∧ storedRating dbC9post 1 = halfRat
    ∧ storedReviewCount dbC9post 1 = 1 := by
  have hpost : dbC9post = recomputeRecipeRating
      ⟨[], [sampleRecipe], [],
       [⟨100, 1, "Ann", none, halfRat, none, none, 0, "published", 4⟩], [], 101⟩ 1 := rfl
  refine ⟨by decide, by decide, rfl, ?_, ?_, ?_⟩
  · intro h
    have hlen := congrArg (fun d => d.reviews.length) h
    exact absurd hlen (by decide)
  · rw [hpost, (stored_of_recompute
      ⟨[], [sampleRecipe], [],
       [⟨100, 1, "Ann", none, halfRat, none, none, 0, "published", 4⟩], [], 101⟩
      1 sampleRecipe rfl).1]
    simp [recipeReviews, avgOrZero, List.filter]
  · rw [hpost, (stored_of_recompute
      ⟨[], [sampleRecipe], [],
       [⟨100, 1, "Ann", none, halfRat, none, none, 0, "published", 4⟩], [], 101⟩
      1 sampleRecipe rfl).2]
    simp [recipeReviews, List.filter]
